import Mathlib

/-! # The CVM guest-attestation sample application (`cvm-attestation-sample-app/main.cpp`)

A shallow embedding of `main.cpp`: the fallback `getopt`, the option loop, the request
builder, the token split / decode step, the compliance evaluation and the output step.

Conventions of the embedding

* a C/C++ `char` is a `Char`, a `std::string` / C string is a `List Char` (`Str`); reading a
  C string at its length yields the terminating NUL;
* everything the program obtains from its collaborators (the attestation client, `std::time`,
  `base64_decode` of `Utils.h`, `json::parse` / `json::dump`, the numeric value computed by
  `strtod`, the text of `what()`) is a field of `Env`, so every theorem holds for all of them;
* a run of `main` is the list of its observable events together with the exit status.
-/

namespace CvmAttestation

/-- A `std::string` or NUL-terminated C string, as its sequence of characters. -/
abbrev Str := List Char

/-- The terminator of a C string. -/
def NUL : Char := Char.ofNat 0

/-! ## Library functions used by `main.cpp` -/

/-- The function `std::toupper(c, std::locale())` in the classic locale (main never changes the
global locale): the letters a..z go to A..Z, every other character is unchanged. -/
def toupper (c : Char) : Char :=
  if 'a' ≤ c ∧ c ≤ 'z' then Char.ofNat (c.toNat - 32) else c

/-- The function `boost::iequals(Input, Test)`, that is `boost::algorithm::equals` with the
predicate `is_iequal`: walk both ranges together, fail at the first pair whose upper-cased
characters differ, and succeed when both ranges end together. -/
def iequals : Str → Str → Bool
  | a :: as, b :: bs => if toupper a = toupper b then iequals as bs else false
  | [], [] => true
  | _, _ => false

/-- The function `boost::split(tokens, input, pred)` with the default `token_compress_off`: the
input is cut at every character satisfying `pred`; empty segments are kept, and the empty
input gives one empty segment. -/
def split (pred : Char → Bool) : Str → List Str
  | [] => [[]]
  | c :: cs =>
    if pred c then [] :: split pred cs
    else
      match split pred cs with
      | t :: ts => (c :: t) :: ts
      | [] => [[c]]

/-- The delimiter predicate of line 156, `[](char c) { return c == '.'; }`. -/
def isDot (c : Char) : Bool := c == '.'

/-- A `double`, kept as its 64-bit pattern; the program never inspects it. -/
structure Double where
  bits : Nat
  deriving DecidableEq

/-- The value type `nlohmann::json`, restricted to the kinds a parsed or built document has. -/
inductive Json where
  | null
  | boolean (b : Bool)
  | number_integer (i : Int)
  | number_unsigned (n : Nat)
  | number_float (d : Double)
  | string (s : Str)
  | array (items : List Json)
  | object (members : List (Str × Json))

/-- The exceptions that can travel through `main`; all of them derive from `std::exception`. -/
inductive Exception where
  | type_error (id : Nat)
  | invalid_argument
  | out_of_range
  | other (what : Str)
  deriving DecidableEq

/-- Member lookup in a JSON object (`object_t::find`). -/
def lookup (key : Str) : List (Str × Json) → Option Json
  | [] => none
  | (k, v) :: rest => if k = key then some v else lookup key rest

/-- Store `v` under `key`, overwriting the member when it exists. -/
def assign (key : Str) (v : Json) : List (Str × Json) → List (Str × Json)
  | [] => [(key, v)]
  | (k, x) :: rest => if k = key then (k, v) :: rest else (k, x) :: assign key v rest

/-- The non-const `basic_json::operator[](key)`: a null value first becomes an empty object; on
an object the member is returned, a missing member being inserted as null; every other kind
throws `type_error.305`. The result is the referenced element and the container afterwards. -/
def Json.subscript (j : Json) (key : Str) : Except Exception (Json × Json) :=
  match j with
  | .null => .ok (.null, .object [(key, .null)])
  | .object ms =>
    match lookup key ms with
    | some v => .ok (v, .object ms)
    | none => .ok (.null, .object (ms ++ [(key, .null)]))
  | _ => .error (.type_error 305)

/-- Write an element obtained by reference back into its container. -/
def Json.store (j : Json) (key : Str) (v : Json) : Json :=
  match j with
  | .object ms => .object (assign key v ms)
  | other => other

/-- The conversion `get<std::string>()`: only a string value converts, every other kind throws
`type_error.302`. -/
def Json.get_string (j : Json) : Except Exception Str :=
  match j with
  | .string s => .ok s
  | _ => .error (.type_error 302)

/-- The function `isspace` in the classic locale. -/
def isspace (c : Char) : Bool :=
  c == ' ' || c == '\t' || c == '\n' || c == Char.ofNat 11 || c == Char.ofNat 12 || c == '\r'

/-- The function `isdigit`. -/
def isdigit (c : Char) : Bool := decide ('0' ≤ c ∧ c ≤ '9')

/-- Drop one optional sign character. -/
def skipSign (s : Str) : Str :=
  match s with
  | c :: r => if c = '+' ∨ c = '-' then r else s
  | [] => []

/-- Whether `s` begins with the letters of `lit`, ignoring letter case. -/
def startsWithIgnoreCase (lit s : Str) : Bool := iequals (s.take lit.length) lit

/-- Whether `strtod` finds a subject sequence in `s` (C11 7.22.1.3): after optional white
space and an optional sign, a decimal or hexadecimal number (both begin with a digit, or with
a point followed by a digit), or INF / INFINITY / NAN in any letter case. What follows the
subject sequence is left unconverted and is not an error. -/
def hasSubject (s : Str) : Bool :=
  let body := skipSign (s.dropWhile isspace)
  match body with
  | [] => false
  | c :: rest =>
    isdigit c
      || (c == '.' && (match rest with
                       | d :: _ => isdigit d
                       | [] => false))
      || startsWithIgnoreCase "inf".toList body
      || startsWithIgnoreCase "nan".toList body

/-- The function `std::stod(s)`: `invalid_argument` when no conversion can be performed,
`out_of_range` when `strtod` reports a range error (`value s = none`), and otherwise the value
of the longest convertible leading part of `s`. -/
def stod (value : Str → Option Double) (s : Str) : Except Exception Double :=
  if hasSubject s then
    match value s with
    | some d => .ok d
    | none => .error .out_of_range
  else .error .invalid_argument

/-! ## The fallback `getopt` (lines 22-55) -/

/-- Read `s[i]` of a C string: the character, or the terminating NUL at `i = length`. -/
def cstrAt (s : Str) (i : Nat) : Char := s.getD i NUL

/-- The function `strchr(s, c)` as an offset into `s`; the terminating NUL is part of the
string, so looking for NUL finds the terminator. -/
def strchr : Str → Char → Option Nat
  | [], c => if c = NUL then some 0 else none
  | x :: xs, c => if x = c then some 0 else (strchr xs c).map (· + 1)

/-- Read `p[1]` for `p = s + i`. At the terminator (`i = length`) this reads one byte past the
string literal; `pastEnd` stands for whatever byte is found there. -/
def nextChar (pastEnd : Char) (s : Str) (i : Nat) : Char :=
  if i < s.length then cstrAt s (i + 1) else pastEnd

/-- The statics `optind` and `optarg` of lines 23-24. -/
structure GetoptState where
  optind : Nat
  optarg : Option Str
  deriving DecidableEq

/-- The value of a `char` as the `int` that `getopt` returns. -/
def charCode (c : Char) : Int := Int.ofNat c.toNat

/-- The fallback `getopt(argc, argv, optstring)` of lines 31-54 with `argc = argv.length`
(so `argv` is never null); returns the `int` result and the statics after the call. -/
def getopt (pastEnd : Char) (argv : List Str) (optstring : Str) (st : GetoptState) :
    Int × GetoptState :=
  if st.optind ≥ argv.length then (-1, st)
  else
    let arg := argv.getD st.optind []
    if cstrAt arg 0 ≠ '-' ∨ cstrAt arg 0 = NUL then (-1, st)
    else
      let opt := cstrAt arg 1
      match strchr optstring opt with
      | none => (charCode '?', st)
      | some p =>
        if nextChar pastEnd optstring p = ':' then
          if st.optind + 1 ≥ argv.length then
            (charCode '?', { st with optind := st.optind + 1 })
          else
            (charCode opt, { optind := st.optind + 2, optarg := some (argv.getD (st.optind + 1) []) })
        else (charCode opt, st)

/-! ## `main` (lines 62-189) -/

/-- What a run of the program does that can be observed from outside. -/
inductive Event where
  | stdout (text : Str)
  | stderr (text : Str)
  | init
  | uninit
  | attest (url payload : Str)
  | free
  | base64_decode (input : Str)
  | parse (input : Str)
  deriving DecidableEq

/-- A finished run: its events in order and the exit status of the process. -/
structure Run where
  trace : List Event
  exit_code : Nat
  deriving DecidableEq

/-- The lines written to standard output, in order. -/
def Run.printed (r : Run) : List Str :=
  r.trace.filterMap (fun e => match e with
    | .stdout s => some s
    | _ => none)

/-- The enumeration `attest::AttestationResult::ErrorCode`: `SUCCESS` or any other code. -/
inductive ErrorCode where
  | SUCCESS
  | failure (code : Int)
  deriving DecidableEq

/-- The structure `attest::AttestationResult`. -/
structure AttestationResult where
  code_ : ErrorCode
  description_ : Str
  deriving DecidableEq

/-- The collaborators of `main`. -/
structure Env where
  /-- the byte after the terminator of the option string literal -/
  pastEnd : Char
  /-- whether the client library call of line 107 succeeds -/
  init_ok : Bool
  /-- the value `strtod` computes, `none` on a range error -/
  strtod_value : Str → Option Double
  /-- the text of `e.what()` -/
  what : Exception → Str
  /-- the result of `std::time(nullptr)` -/
  time : Int
  /-- the method `json::dump`, which may throw -/
  dump : Json → Except Exception Str
  /-- the method `AttestationClient::Attest(params, &jwt)`: its result and the token buffer -/
  attest : Str → Str → AttestationResult × Str
  /-- the function `base64_decode` of `Utils.h` -/
  base64_decode : Str → Except Exception Str
  /-- the function `json::parse` -/
  parse : Str → Except Exception Json

/-- The four strings filled by the option loop (lines 63-66). -/
structure Options where
  attestation_url : Str
  nonce : Str
  price : Str
  output_type : Str
  deriving DecidableEq

/-- The macro `OUTPUT_TYPE_JWT` (line 15). -/
def OUTPUT_TYPE_JWT : Str := "TOKEN".toList

/-- The macro `OUTPUT_TYPE_BOOL` (line 16). -/
def OUTPUT_TYPE_BOOL : Str := "BOOL".toList

/-- The global `default_attestation_url` (lines 19-20). -/
def default_attestation_url : Str := "https://sharedeus2.eus2.attest.azure.net/".toList

/-- The option string passed to `getopt` on line 69. -/
def optstring : Str := ":a:n:p:o:".toList

/-- The text printed by `usage` (lines 57-60). -/
def usageText (programName : Str) : Str :=
  "Usage: ".toList ++ programName
    ++ " -a <attestation-endpoint> -n <nonce> -p <price> -o JWT\n".toList

/-- How the option loop ends. -/
inductive LoopResult where
  | done (o : Options)
  | exited (trace : List Event) (code : Nat)
  | outOfFuel
  deriving DecidableEq

/-- One pass through the `switch` of lines 70-89 for an option character that takes a value;
`none` for the two exiting cases. -/
def storeOption (o : Options) (opt : Int) (optarg : Option Str) : Option Options :=
  if opt = charCode 'a' then some { o with attestation_url := optarg.getD [] }
  else if opt = charCode 'n' then some { o with nonce := optarg.getD [] }
  else if opt = charCode 'p' then some { o with price := optarg.getD [] }
  else if opt = charCode 'o' then some { o with output_type := optarg.getD [] }
  else none

/-- The `while` loop of lines 69-90, one iteration per unit of fuel. -/
def optionLoop (pastEnd : Char) (argv : List Str) : Nat → GetoptState → Options → LoopResult
  | 0, _, _ => .outOfFuel
  | fuel + 1, st, o =>
    match getopt pastEnd argv optstring st with
    | (opt, st1) =>
      if opt = -1 then .done o
      else
        match storeOption o opt st1.optarg with
        | some o1 => optionLoop pastEnd argv fuel st1 o1
        | none =>
          if opt = charCode ':' then .exited [.stderr "Option needs a value\n".toList] 1
          else .exited [.stdout (usageText (argv.getD 0 []))] 1

/-- The statics and the four strings when `main` starts. -/
def initialState : GetoptState := { optind := 1, optarg := none }

/-- The four empty strings of lines 63-66. -/
def noOptions : Options := { attestation_url := [], nonce := [], price := [], output_type := [] }

/-- The option loop as `main` runs it; `argv.length + 1` iterations always suffice. -/
def parseOptions (pastEnd : Char) (argv : List Str) : LoopResult :=
  optionLoop pastEnd argv (argv.length + 1) initialState noOptions

/-- The key of the TEE isolation object. -/
def KEY_TEE : Str := "x-ms-isolation-tee".toList

/-- The key of the attestation type inside the TEE isolation object. -/
def KEY_TYPE : Str := "x-ms-attestation-type".toList

/-- The key of the compliance status inside the TEE isolation object. -/
def KEY_STATUS : Str := "x-ms-compliance-status".toList

/-- The expression `attestation_claims["x-ms-isolation-tee"][field].get<std::string>()`
(lines 165-166 and 168-169): the string and the claims document after the two subscripts. -/
def claimString (attestation_claims : Json) (field : Str) : Except Exception (Str × Json) :=
  match attestation_claims.subscript KEY_TEE with
  | .error e => .error e
  | .ok (tee, claims1) =>
    match tee.subscript field with
    | .error e => .error e
    | .ok (v, tee1) =>
      match v.get_string with
      | .error e => .error e
      | .ok s => .ok (s, claims1.store KEY_TEE tee1)

/-- The body of the `try` block of lines 163-173; the result is whether `is_cvm` is set. -/
def tryEvaluate (attestation_claims : Json) : Except Exception Bool :=
  match claimString attestation_claims KEY_TYPE with
  | .error e => .error e
  | .ok (attestation_type, claims1) =>
    match claimString claims1 KEY_STATUS with
    | .error e => .error e
    | .ok (compliance_status, _) =>
      .ok (iequals attestation_type "sevsnpvm".toList
            && iequals compliance_status "azure-compliant-cvm".toList)

/-- Lines 163-175 with the `catch (...)` that swallows every exception: the value of `is_cvm`
after the block (`is_cvm` is `false` before it). -/
def evaluateClaims (attestation_claims : Json) : Bool :=
  match tryEvaluate attestation_claims with
  | .ok b => b
  | .error _ => false

/-- The text printed by the outer handler of lines 185-188. -/
def exceptionText (env : Env) (e : Exception) : Str :=
  "Exception occured. Details - ".toList ++ env.what e

/-- How the block of lines 152-176 ends: the process exits with status 1, or control goes on
to the output step with a value of `is_cvm`. -/
inductive Decoded where
  | fatal (trace : List Event)
  | verdict (trace : List Event) (is_cvm : Bool)
  deriving DecidableEq

/-- Lines 162-175 for the second segment `tokens[1]`: decode it, parse it (an exception of
either goes to the outer handler of lines 185-188) and evaluate the claims. -/
def decodeSegment (env : Env) (segment : Str) : Decoded :=
  match env.base64_decode segment with
  | .error e => .fatal [.base64_decode segment, .stdout (exceptionText env e)]
  | .ok decoded =>
    match env.parse decoded with
    | .error e => .fatal [.base64_decode segment, .parse decoded, .stdout (exceptionText env e)]
    | .ok attestation_claims =>
      .verdict [.base64_decode segment, .parse decoded] (evaluateClaims attestation_claims)

/-- Lines 155-176: split the token at the dots, exit when there are fewer than three
segments, and otherwise work on the second segment only. -/
def decodeToken (env : Env) (jwt_str : Str) : Decoded :=
  let tokens := split isDot jwt_str
  if tokens.length < 3 then .fatal [.stdout "Invalid JWT token".toList]
  else decodeSegment env (tokens.getD 1 [])

/-- The line printed by lines 178-183. -/
def outputLine (output_type : Str) (attestation_success : Bool) (jwt_str description : Str)
    (is_cvm : Bool) : Str :=
  if iequals output_type OUTPUT_TYPE_JWT then
    (if attestation_success then jwt_str else description) ++ ['\n']
  else
    (if is_cvm then "true".toList else "false".toList) ++ ['\n']

/-- Lines 113-132: the serialized payload, or the run that ends the process. The members of a
JSON object are ordered by key. -/
def buildPayload (env : Env) (o : Options) : Except Run Str :=
  let price : Except Exception Json :=
    if o.price ≠ [] then
      match stod env.strtod_value o.price with
      | .ok d => .ok (.number_float d)
      | .error e => .error e
    else .ok .null
  match price with
  | .error e =>
    .error ⟨[.init, .stdout ("Error converting price: ".toList ++ env.what e ++ ['\n'])], 1⟩
  | .ok priceValue =>
    let payload : Json := .object
      [("nonce".toList, .string o.nonce), ("price".toList, priceValue),
       ("timestamp".toList, .number_integer env.time)]
    match env.dump payload with
    | .error e => .error ⟨[.init, .stdout (exceptionText env e)], 1⟩
    | .ok client_payload_str => .ok client_payload_str

/-- The attestation URL after lines 93-96. -/
def effectiveUrl (o : Options) : Str :=
  if o.attestation_url = [] then default_attestation_url else o.attestation_url

/-- The output type after lines 98-101. -/
def effectiveOutputType (o : Options) : Str :=
  if o.output_type = [] then OUTPUT_TYPE_BOOL else o.output_type

/-- Lines 142-184: what follows the call of `Attest`, given its result and token. -/
def afterAttest (env : Env) (output_type : Str) (result : AttestationResult) (jwt : Str) :
    Run :=
  if result.code_ ≠ ErrorCode.SUCCESS then
    ⟨[.stdout (outputLine output_type false [] result.description_ false), .uninit], 0⟩
  else
    match decodeToken env jwt with
    | .fatal trace => ⟨.free :: trace, 1⟩
    | .verdict trace is_cvm =>
      ⟨.free :: trace
        ++ [.stdout (outputLine output_type true jwt result.description_ is_cvm), .uninit], 0⟩

/-- The `try` block of lines 92-188 for parsed options. -/
def mainBody (env : Env) (o : Options) : Run :=
  if env.init_ok = false then
    ⟨[.init, .stdout "Failed to create attestation client object\n".toList, .uninit], 1⟩
  else
    match buildPayload env o with
    | .error run => run
    | .ok client_payload_str =>
      let r := env.attest (effectiveUrl o) client_payload_str
      let rest := afterAttest env (effectiveOutputType o) r.1 r.2
      ⟨[.init, .attest (effectiveUrl o) client_payload_str] ++ rest.trace, rest.exit_code⟩

/-- The function `main` (lines 62-189). A loop that ran out of fuel has no exit status of the
program; `parseOptions_terminates` shows that this case does not arise. -/
def main (env : Env) (argv : List Str) : Run :=
  match parseOptions env.pastEnd argv with
  | .done o => mainBody env o
  | .exited trace code => ⟨trace, code⟩
  | .outOfFuel => ⟨[], 0⟩

/-! ## Notions of the specification -/

/-- Equality of two strings ignoring letter case, in the words of the specification: the
strings agree once every letter is upper-cased. -/
def equalIgnoringCase (a b : Str) : Prop := a.map toupper = b.map toupper

instance (a b : Str) : Decidable (equalIgnoringCase a b) :=
  inferInstanceAs (Decidable (a.map toupper = b.map toupper))

/-- Whether the member `key` of an object is present and a string. -/
def isStringMember (key : Str) (ms : List (Str × Json)) : Bool :=
  match lookup key ms with
  | some (.string _) => true
  | _ => false

/-- Claims that are inconclusive in the words of the specification: the TEE isolation member
is absent or not an object (in particular when the claims value is not an object), or one of
its two fields is absent or not a string. -/
def inconclusive (claims : Json) : Bool :=
  match claims with
  | .object ms =>
    match lookup KEY_TEE ms with
    | some (.object tee) => !isStringMember KEY_TYPE tee || !isStringMember KEY_STATUS tee
    | _ => true
  | _ => true

/-- The loop states that option parsing reaches: the start state, and every state that one
iteration storing an option value leads to. -/
inductive Reaches (pastEnd : Char) (argv : List Str) : GetoptState → Options → Prop where
  | start : Reaches pastEnd argv initialState noOptions
  | step (st st1 : GetoptState) (o o1 : Options) (opt : Int) :
      Reaches pastEnd argv st o →
      getopt pastEnd argv optstring st = (opt, st1) →
      opt ≠ -1 →
      storeOption o opt st1.optarg = some o1 →
      Reaches pastEnd argv st1 o1

/-- A base-10 floating-point number in its entirety, in the words of the specification: an
optional sign, digits with at most one point and at least one digit, and optionally an
exponent of the letter e, an optional sign and digits; nothing before and nothing after. -/
def isDecimalFloat (s : Str) : Bool :=
  let body := skipSign s
  let mantissa := body.takeWhile (fun c => isdigit c || c == '.')
  let rest := body.dropWhile (fun c => isdigit c || c == '.')
  mantissa.any isdigit && decide (mantissa.count '.' ≤ 1)
    && (match rest with
        | [] => true
        | e :: ex => (e == 'e' || e == 'E') && !(skipSign ex).isEmpty && (skipSign ex).all isdigit)

/-! ## Sample inputs -/

/-- A TEE isolation object holding the two given strings. -/
def sampleTee (attestation_type compliance_status : Str) : List (Str × Json) :=
  [(KEY_TYPE, .string attestation_type), (KEY_STATUS, .string compliance_status)]

/-- The members of a claims document with other claims around the TEE isolation object. -/
def sampleMembers (attestation_type compliance_status : Str) : List (Str × Json) :=
  [("iss".toList, .string "https://sharedeus2.eus2.attest.azure.net".toList),
   (KEY_TEE, .object (sampleTee attestation_type compliance_status)),
   ("x-ms-ver".toList, .string "1.0".toList)]

/-- Sample collaborators: the client library starts, `strtod` yields 12.0, the payload
serializes to a fixed text, `Attest` answers with the given code and token, and the second
segment decodes and parses to the given claims. -/
def sampleEnv (code : ErrorCode) (jwt : Str) (claims : Json) : Env :=
  { pastEnd := NUL
    init_ok := true
    strtod_value := fun _ => some ⟨0x4028000000000000⟩
    what := fun _ => "stod".toList
    time := 1700000000
    dump := fun _ => .ok "payload".toList
    attest := fun _ _ => (⟨code, "attestation failed".toList⟩, jwt)
    base64_decode := fun s => .ok s
    parse := fun _ => .ok claims }

/-- Sample options: only the output type is given. -/
def optionsWithOutput (output_type : Str) : Options :=
  { noOptions with output_type := output_type }

/-- Sample options: only the price is given. -/
def optionsWithPrice (price : Str) : Options :=
  { noOptions with price := price }

/-- Sample arguments: the program name, one option and its value. -/
def argvWith (option value : String) : List Str :=
  ["prog".toList, option.toList, value.toList]

/-! ## Supporting lemmas -/

theorem iequals_iff (a b : Str) : iequals a b = true ↔ equalIgnoringCase a b := by
  unfold equalIgnoringCase
  induction a generalizing b with
  | nil => cases b <;> simp [iequals]
  | cons x xs ih =>
    cases b with
    | nil => simp [iequals]
    | cons y ys =>
      by_cases h : toupper x = toupper y
      · simp [iequals, h, ih]
      · simp [iequals, h]

theorem split_ne_nil (pred : Char → Bool) (s : Str) : split pred s ≠ [] := by
  induction s with
  | nil => simp [split]
  | cons c cs ih =>
    unfold split
    by_cases h : pred c = true
    · simp [h]
    · simp only [h]
      cases hs : split pred cs <;> simp

theorem split_length (s : Str) : (split isDot s).length = s.count '.' + 1 := by
  induction s with
  | nil => simp [split]
  | cons c cs ih =>
    unfold split
    by_cases h : c = '.'
    · subst h
      simp [isDot, ih]
    · have h2 : isDot c = false := by simp [isDot, h]
      have h3 : ('.' == c) = false := by simpa using Ne.symm h
      simp only [h2]
      cases hs : split isDot cs with
      | nil => exact absurd hs (split_ne_nil _ _)
      | cons t ts =>
        rw [hs] at ih
        simp only [List.length_cons, Nat.add_right_cancel_iff] at ih
        simp [List.count_cons, h, ih]

theorem assign_lookup (key : Str) (v : Json) (ms : List (Str × Json))
    (h : lookup key ms = some v) : assign key v ms = ms := by
  induction ms with
  | nil => simp [lookup] at h
  | cons kv rest ih =>
    obtain ⟨k, x⟩ := kv
    by_cases hk : k = key
    · simp [lookup, hk] at h
      simp [assign, hk, h]
    · simp [lookup, hk] at h
      simp [assign, hk, ih h]

theorem claimString_present (ms tee : List (Str × Json)) (field s : Str)
    (htee : lookup KEY_TEE ms = some (.object tee))
    (hs : lookup field tee = some (.string s)) :
    claimString (.object ms) field = .ok (s, .object ms) := by
  simp [claimString, Json.subscript, htee, hs, Json.get_string, Json.store,
    assign_lookup _ _ _ htee]

theorem claimString_ok (claims c1 : Json) (field s : Str)
    (h : claimString claims field = .ok (s, c1)) :
    ∃ ms tee, claims = .object ms ∧ lookup KEY_TEE ms = some (.object tee)
      ∧ lookup field tee = some (.string s) ∧ c1 = claims := by
  cases claims with
  | object ms =>
    cases htee : lookup KEY_TEE ms with
    | none => simp [claimString, Json.subscript, htee, lookup, Json.get_string] at h
    | some v =>
      cases v with
      | object tee =>
        cases hf : lookup field tee with
        | none => simp [claimString, Json.subscript, htee, hf, Json.get_string] at h
        | some x =>
          cases x <;>
            simp [claimString, Json.subscript, htee, hf, Json.get_string, Json.store,
              assign_lookup _ _ _ htee] at h
          exact ⟨ms, tee, rfl, htee, by rw [← h.1]; exact hf, h.2.symm⟩
      | _ => simp [claimString, Json.subscript, htee, Json.get_string] at h
  | _ => simp [claimString, Json.subscript, Json.get_string] at h

theorem evaluateClaims_present (ms tee : List (Str × Json)) (t c : Str)
    (htee : lookup KEY_TEE ms = some (.object tee))
    (ht : lookup KEY_TYPE tee = some (.string t))
    (hc : lookup KEY_STATUS tee = some (.string c)) :
    evaluateClaims (.object ms)
      = (iequals t "sevsnpvm".toList && iequals c "azure-compliant-cvm".toList) := by
  simp [evaluateClaims, tryEvaluate, claimString_present ms tee _ _ htee ht,
    claimString_present ms tee _ _ htee hc]

theorem evaluateClaims_inconclusive (claims : Json) (h : inconclusive claims = true) :
    evaluateClaims claims = false := by
  cases hr : tryEvaluate claims with
  | error e => simp [evaluateClaims, hr]
  | ok b =>
    exfalso
    unfold tryEvaluate at hr
    cases h1 : claimString claims KEY_TYPE with
    | error e => simp [h1] at hr
    | ok r1 =>
      obtain ⟨t, c1⟩ := r1
      obtain ⟨ms, tee, hcl, htee, ht, hc1⟩ := claimString_ok _ _ _ _ h1
      rw [h1] at hr
      simp only [hc1] at hr
      cases h2 : claimString claims KEY_STATUS with
      | error e => simp [h2] at hr
      | ok r2 =>
        obtain ⟨c, c2⟩ := r2
        obtain ⟨ms2, tee2, hcl2, htee2, hc, _⟩ := claimString_ok _ _ _ _ h2
        subst hcl
        cases hcl2
        clear hc1
        rw [htee] at htee2
        cases htee2
        simp [inconclusive, htee, isStringMember, ht, hc] at h


theorem main_of_options (env : Env) (argv : List Str) (o : Options)
    (hopts : parseOptions env.pastEnd argv = .done o) : main env argv = mainBody env o := by
  simp [main, hopts]

theorem mainBody_of_payload (env : Env) (o : Options) (p : Str)
    (hinit : env.init_ok = true) (hpay : buildPayload env o = .ok p) :
    mainBody env o =
      ⟨[.init, .attest (effectiveUrl o) p]
          ++ (afterAttest env (effectiveOutputType o) (env.attest (effectiveUrl o) p).1
                (env.attest (effectiveUrl o) p).2).trace,
        (afterAttest env (effectiveOutputType o) (env.attest (effectiveUrl o) p).1
                (env.attest (effectiveUrl o) p).2).exit_code⟩ := by
  simp [mainBody, hinit, hpay]

theorem iequals_effectiveOutputType (o : Options) :
    iequals (effectiveOutputType o) OUTPUT_TYPE_JWT = iequals o.output_type OUTPUT_TYPE_JWT := by
  unfold effectiveOutputType
  by_cases h : o.output_type = []
  · rw [if_pos h, h]; decide
  · rw [if_neg h]

theorem decodeToken_short (env : Env) (jwt : Str) (h : (split isDot jwt).length < 3) :
    decodeToken env jwt = .fatal [.stdout "Invalid JWT token".toList] := by
  simp [decodeToken, h]

theorem decodeToken_long (env : Env) (jwt : Str) (h : 3 ≤ (split isDot jwt).length) :
    decodeToken env jwt = decodeSegment env ((split isDot jwt).getD 1 []) := by
  have h3 : ¬ (split isDot jwt).length < 3 := by omega
  simp only [decodeToken, h3, if_false]

theorem decodeSegment_parsed (env : Env) (segment decoded : Str) (claims : Json)
    (hdec : env.base64_decode segment = .ok decoded)
    (hparse : env.parse decoded = .ok claims) :
    decodeSegment env segment =
      .verdict [.base64_decode segment, .parse decoded] (evaluateClaims claims) := by
  simp only [decodeSegment, hdec, hparse]

theorem decodeSegment_decodes (env : Env) (segment : Str) :
    (∃ trace, decodeSegment env segment = .fatal (.base64_decode segment :: trace))
    ∨ (∃ decoded b, decodeSegment env segment
          = .verdict [.base64_decode segment, .parse decoded] b) := by
  cases hd : env.base64_decode segment with
  | error e => exact Or.inl ⟨_, by simp only [decodeSegment, hd]; rfl⟩
  | ok decoded =>
    cases hp : env.parse decoded with
    | error e => exact Or.inl ⟨_, by simp only [decodeSegment, hd, hp]; rfl⟩
    | ok claims => exact Or.inr ⟨decoded, _, by simp only [decodeSegment, hd, hp]; rfl⟩

theorem decodeToken_verdict (env : Env) (jwt : Str) (trace : List Event) (b : Bool)
    (h : decodeToken env jwt = .verdict trace b) :
    ∃ decoded, trace = [.base64_decode ((split isDot jwt).getD 1 []), .parse decoded] := by
  by_cases hl : (split isDot jwt).length < 3
  · rw [decodeToken_short env jwt hl] at h
    cases h
  · rw [decodeToken_long env jwt (by omega)] at h
    rcases decodeSegment_decodes env ((split isDot jwt).getD 1 []) with ⟨t, ht⟩ | ⟨d, b2, hd⟩
    · rw [ht] at h; cases h
    · rw [hd] at h; cases h; exact ⟨d, rfl⟩

theorem charCode_inj {c d : Char} (h : charCode c = charCode d) : c = d := by
  have h1 : c.toNat = d.toNat := Int.ofNat.inj h
  rw [← Char.ofNat_toNat c, ← Char.ofNat_toNat d, h1]

theorem strchr_optstring (c : Char) :
    strchr optstring c =
      if c = ':' then some 0
      else if c = 'a' then some 1
      else if c = 'n' then some 3
      else if c = 'p' then some 5
      else if c = 'o' then some 7
      else if c = NUL then some 9
      else none := by
  have e : optstring = [':', 'a', ':', 'n', ':', 'p', ':', 'o', ':'] := by decide
  rw [e]
  simp only [strchr]
  by_cases h1 : c = ':'
  · subst h1; simp
  by_cases h2 : c = 'a'
  · subst h2; simp
  by_cases h3 : c = 'n'
  · subst h3; simp
  by_cases h4 : c = 'p'
  · subst h4; simp
  by_cases h5 : c = 'o'
  · subst h5; simp
  have g1 : ¬ ':' = c := fun h => h1 h.symm
  have g2 : ¬ 'a' = c := fun h => h2 h.symm
  have g3 : ¬ 'n' = c := fun h => h3 h.symm
  have g4 : ¬ 'p' = c := fun h => h4 h.symm
  have g5 : ¬ 'o' = c := fun h => h5 h.symm
  by_cases h6 : c = NUL
  · subst h6; decide
  · simp [h1, h2, h3, h4, h5, g1, g2, g3, g4, g5, h6]

/-- What `getopt` returns at an argument that begins with a dash, by its second character. -/
theorem getopt_dash (pastEnd : Char) (argv : List Str) (st : GetoptState)
    (hind : st.optind < argv.length)
    (hdash : cstrAt (argv.getD st.optind []) 0 = '-') :
    getopt pastEnd argv optstring st =
      match strchr optstring (cstrAt (argv.getD st.optind []) 1) with
      | none => (charCode '?', st)
      | some p =>
        if nextChar pastEnd optstring p = ':' then
          if st.optind + 1 ≥ argv.length then
            (charCode '?', { st with optind := st.optind + 1 })
          else
            (charCode (cstrAt (argv.getD st.optind []) 1),
              { optind := st.optind + 2, optarg := some (argv.getD (st.optind + 1) []) })
        else (charCode (cstrAt (argv.getD st.optind []) 1), st) := by
  have h1 : ¬ st.optind ≥ argv.length := by omega
  have h2 : ¬ (cstrAt (argv.getD st.optind []) 0 ≠ '-' ∨ cstrAt (argv.getD st.optind []) 0 = NUL) := by
    rw [hdash]; decide
  simp only [getopt, h1, h2, if_false]


theorem nextChar_optstring (pastEnd : Char) :
    nextChar pastEnd optstring 0 = 'a' ∧ nextChar pastEnd optstring 1 = ':'
    ∧ nextChar pastEnd optstring 3 = ':' ∧ nextChar pastEnd optstring 5 = ':'
    ∧ nextChar pastEnd optstring 7 = ':' ∧ nextChar pastEnd optstring 9 = pastEnd := by
  refine ⟨rfl, rfl, rfl, rfl, rfl, rfl⟩

/-- At a dash argument whose second character is none of a, n, p, o, or which is the last
argument, `getopt` returns the code of `?`, the code of `:` or 0. -/
theorem getopt_bad (pastEnd : Char) (argv : List Str) (st : GetoptState)
    (hind : st.optind < argv.length)
    (hdash : cstrAt (argv.getD st.optind []) 0 = '-')
    (hbad : cstrAt (argv.getD st.optind []) 1 ∉ ['a', 'n', 'p', 'o']
      ∨ st.optind + 1 = argv.length) :
    (getopt pastEnd argv optstring st).1 = charCode '?'
    ∨ (getopt pastEnd argv optstring st).1 = charCode ':'
    ∨ (getopt pastEnd argv optstring st).1 = 0 := by
  obtain ⟨n0, n1, n3, n5, n7, n9⟩ := nextChar_optstring pastEnd
  rw [getopt_dash pastEnd argv st hind hdash, strchr_optstring]
  generalize cstrAt (argv.getD st.optind []) 1 = c at hbad ⊢
  by_cases h1 : c = ':'
  · subst h1
    simp only [if_true, n0]
    right; left; rfl
  simp only [h1, if_false]
  by_cases hset : c ∈ ['a', 'n', 'p', 'o']
  · have hlast : st.optind + 1 ≥ argv.length := by
      rcases hbad with h | h
      · exact absurd hset h
      · omega
    simp only [List.mem_cons, List.mem_singleton, List.not_mem_nil, or_false] at hset
    rcases hset with h | h | h | h <;> subst h <;> simp [n1, n3, n5, n7, hlast]
  · simp only [List.mem_cons, List.mem_singleton, List.not_mem_nil, or_false, not_or] at hset
    obtain ⟨h2, h3, h4, h5⟩ := hset
    simp only [h2, h3, h4, h5, if_false]
    by_cases h6 : c = NUL
    · subst h6
      simp only [if_true, n9]
      by_cases hp : pastEnd = ':'
      · by_cases hl : st.optind + 1 ≥ argv.length
        · simp [hp, hl]
        · simp only [hp, hl, if_true, if_false]
          right; right; rfl
      · simp only [hp, if_false]
        right; right; rfl
    · simp [h6]

theorem storeOption_none (o : Options) (opt : Int) (x : Option Str)
    (h : opt = -1 ∨ opt = charCode '?' ∨ opt = charCode ':' ∨ opt = 0) :
    storeOption o opt x = none := by
  rcases h with h | h | h | h <;> subst h <;> rfl

theorem storeOption_some (o o1 : Options) (opt : Int) (x : Option Str)
    (h : storeOption o opt x = some o1) :
    opt = charCode 'a' ∨ opt = charCode 'n' ∨ opt = charCode 'p' ∨ opt = charCode 'o' := by
  unfold storeOption at h
  by_cases h1 : opt = charCode 'a'
  · exact Or.inl h1
  by_cases h2 : opt = charCode 'n'
  · exact Or.inr (Or.inl h2)
  by_cases h3 : opt = charCode 'p'
  · exact Or.inr (Or.inr (Or.inl h3))
  by_cases h4 : opt = charCode 'o'
  · exact Or.inr (Or.inr (Or.inr h4))
  simp [h1, h2, h3, h4] at h


theorem getopt_stop (pastEnd : Char) (argv : List Str) (st : GetoptState)
    (h : ¬ (st.optind < argv.length ∧ cstrAt (argv.getD st.optind []) 0 = '-')) :
    getopt pastEnd argv optstring st = (-1, st) := by
  unfold getopt
  by_cases h1 : st.optind ≥ argv.length
  · simp only [h1, if_true]
  · have h2 : cstrAt (argv.getD st.optind []) 0 ≠ '-' := fun hd => h ⟨by omega, hd⟩
    simp only [h1, if_false, h2, ne_eq, not_false_eq_true, true_or, if_true]

/-- An iteration that stores an option value consumes two arguments. -/
theorem getopt_store (pastEnd : Char) (argv : List Str) (st st1 : GetoptState)
    (o o1 : Options) (opt : Int) (x : Option Str)
    (hg : getopt pastEnd argv optstring st = (opt, st1))
    (hs : storeOption o opt x = some o1) :
    st1.optind = st.optind + 2 ∧ st.optind + 2 ≤ argv.length := by
  by_cases h : st.optind < argv.length ∧ cstrAt (argv.getD st.optind []) 0 = '-'
  · obtain ⟨hind, hdash⟩ := h
    by_cases hbad : cstrAt (argv.getD st.optind []) 1 ∉ ['a', 'n', 'p', 'o']
        ∨ st.optind + 1 = argv.length
    · have hb := getopt_bad pastEnd argv st hind hdash hbad
      rw [hg] at hb
      rw [storeOption_none o opt x (Or.inr (by simpa using hb))] at hs
      cases hs
    · simp only [not_or, not_not] at hbad
      obtain ⟨hset, hlast⟩ := hbad
      obtain ⟨n0, n1, n3, n5, n7, n9⟩ := nextChar_optstring pastEnd
      have hl : ¬ st.optind + 1 ≥ argv.length := by omega
      rw [getopt_dash pastEnd argv st hind hdash, strchr_optstring] at hg
      generalize cstrAt (argv.getD st.optind []) 1 = c at hset hg
      simp only [List.mem_cons, List.mem_singleton, List.not_mem_nil, or_false] at hset
      have key : st1.optind = st.optind + 2 := by
        rcases hset with h | h | h | h <;> subst h <;>
          simp [n1, n3, n5, n7, hl] at hg <;> rw [← hg.2]
      exact ⟨key, by omega⟩
  · rw [getopt_stop pastEnd argv st h] at hg
    cases hg
    rw [storeOption_none o (-1) x (Or.inl rfl)] at hs
    cases hs

/-- The option loop never runs out of fuel when the fuel covers the remaining arguments. -/
theorem optionLoop_fuel (pastEnd : Char) (argv : List Str) (fuel : Nat) :
    ∀ (st : GetoptState) (o : Options), argv.length ≤ st.optind + fuel →
      optionLoop pastEnd argv (fuel + 1) st o ≠ .outOfFuel := by
  induction fuel with
  | zero =>
    intro st o h
    have hs := getopt_stop pastEnd argv st (fun hh => by omega)
    simp [optionLoop, hs]
  | succ k ih =>
    intro st o h
    rw [optionLoop]
    cases hg : getopt pastEnd argv optstring st with
    | mk opt st1 =>
      simp only
      by_cases h1 : opt = -1
      · simp [h1]
      · simp only [h1, if_false]
        cases hs : storeOption o opt st1.optarg with
        | some o1 =>
          simp only
          have := getopt_store pastEnd argv st st1 o o1 opt _ hg hs
          exact ih st1 o1 (by omega)
        | none =>
          simp only
          split <;> simp

/-- The option loop of `main` always ends: it yields the parsed options or an exit. -/
theorem parseOptions_terminates (pastEnd : Char) (argv : List Str) :
    parseOptions pastEnd argv ≠ .outOfFuel := by
  unfold parseOptions
  exact optionLoop_fuel pastEnd argv argv.length initialState noOptions (by simp [initialState])

theorem reaches_loop (pastEnd : Char) (argv : List Str) (st : GetoptState) (o : Options)
    (h : Reaches pastEnd argv st o) :
    ∃ fuel, argv.length ≤ st.optind + fuel
      ∧ parseOptions pastEnd argv = optionLoop pastEnd argv (fuel + 1) st o := by
  induction h with
  | start => exact ⟨argv.length, by simp [initialState], rfl⟩
  | step st st1 o o1 opt hr hg hne hs ih =>
    obtain ⟨fuel, hf, he⟩ := ih
    have hst := getopt_store pastEnd argv st st1 o o1 opt _ hg hs
    obtain ⟨k, hk⟩ : ∃ k, fuel = k + 1 := ⟨fuel - 1, by omega⟩
    subst hk
    refine ⟨k, by omega, ?_⟩
    rw [he]
    conv_lhs => rw [optionLoop]
    simp only [hg, hne, if_false, hs]

/-- One iteration of the loop at a value of `getopt` that is the code of `?`, the code of
`:` or 0 ends the process with status 1 after one message. -/
theorem optionLoop_exit (pastEnd : Char) (argv : List Str) (fuel : Nat) (st : GetoptState)
    (o : Options)
    (h : (getopt pastEnd argv optstring st).1 = charCode '?'
      ∨ (getopt pastEnd argv optstring st).1 = charCode ':'
      ∨ (getopt pastEnd argv optstring st).1 = 0) :
    optionLoop pastEnd argv (fuel + 1) st o = .exited [.stderr "Option needs a value\n".toList] 1
    ∨ optionLoop pastEnd argv (fuel + 1) st o
        = .exited [.stdout (usageText (argv.getD 0 []))] 1 := by
  rw [optionLoop]
  cases hg : getopt pastEnd argv optstring st with
  | mk opt st1 =>
    rw [hg] at h
    simp only at h
    have hn : storeOption o opt st1.optarg = none := storeOption_none o opt _ (Or.inr h)
    have h1 : opt ≠ -1 := by
      rcases h with h | h | h <;> rw [h] <;> decide
    simp only [h1, if_false, hn]
    split
    · exact Or.inl rfl
    · exact Or.inr rfl

theorem isdigit_not_special (c : Char) (h : isdigit c = true) :
    isspace c = false ∧ c ≠ '+' ∧ c ≠ '-' ∧ c ≠ '.' := by
  simp only [isdigit, decide_eq_true_eq] at h
  obtain ⟨h1, h2⟩ := h
  have e1 : (48 : Nat) ≤ c.toNat := h1
  have e2 : c.toNat ≤ 57 := h2
  have ne : ∀ d : Char, (d.toNat < 48 ∨ 57 < d.toNat) → c ≠ d := by
    intro d hd hcd
    subst hcd
    omega
  refine ⟨?_, ne '+' (by decide), ne '-' (by decide), ne '.' (by decide)⟩
  simp only [isspace, Bool.or_eq_false_iff, beq_eq_false_iff_ne]
  exact ⟨⟨⟨⟨⟨ne ' ' (by decide), ne '\t' (by decide)⟩, ne '\n' (by decide)⟩,
    ne (Char.ofNat 11) (by decide)⟩, ne (Char.ofNat 12) (by decide)⟩, ne '\r' (by decide)⟩

/-- The mantissa of a decimal number begins with a digit, or with a point and a digit. -/
theorem mantissa_head (body : Str)
    (hany : (body.takeWhile (fun c => isdigit c || c == '.')).any isdigit = true)
    (hcount : (body.takeWhile (fun c => isdigit c || c == '.')).count '.' ≤ 1) :
    ∃ c r, body = c :: r ∧
      (isdigit c = true ∨ (c = '.' ∧ ∃ d r2, r = d :: r2 ∧ isdigit d = true)) := by
  cases body with
  | nil => simp at hany
  | cons c r =>
    refine ⟨c, r, rfl, ?_⟩
    by_cases hd : isdigit c = true
    · exact Or.inl hd
    · right
      by_cases hp : c = '.'
      · subst hp
        refine ⟨rfl, ?_⟩
        have hd2 : isdigit '.' = false := by decide
        simp only [List.takeWhile_cons, hd2, beq_self_eq_true, Bool.or_true, if_true,
          List.any_cons, Bool.false_or, List.count_cons_self] at hany hcount
        cases r with
        | nil => simp at hany
        | cons d r2 =>
          refine ⟨d, r2, rfl, ?_⟩
          by_cases hdd : isdigit d = true
          · exact hdd
          · by_cases hdp : d = '.'
            · subst hdp
              simp [List.takeWhile_cons] at hcount
            · simp [List.takeWhile_cons, hdd, hdp] at hany
      · simp [List.takeWhile_cons, hd, hp] at hany

/-- A string that is a decimal number in its entirety has a subject sequence for `strtod`. -/
theorem hasSubject_of_isDecimalFloat (s : Str) (h : isDecimalFloat s = true) :
    hasSubject s = true := by
  simp only [isDecimalFloat, Bool.and_eq_true, decide_eq_true_eq] at h
  obtain ⟨⟨hany, hcount⟩, _⟩ := h
  obtain ⟨c, r, hbody, hc⟩ := mantissa_head (skipSign s) hany hcount
  have hcs : isspace c = false ∧ c ≠ '+' ∧ c ≠ '-' := by
    rcases hc with hd | ⟨hp, _⟩
    · exact ⟨(isdigit_not_special c hd).1, (isdigit_not_special c hd).2.1,
        (isdigit_not_special c hd).2.2.1⟩
    · subst hp; decide
  have hdrop : skipSign (s.dropWhile isspace) = c :: r := by
    cases s with
    | nil => simp [skipSign] at hbody
    | cons x xs =>
      by_cases hx : x = '+' ∨ x = '-'
      · have hsp : isspace x = false := by rcases hx with h | h <;> subst h <;> decide
        simp only [List.dropWhile_cons, hsp]
        exact hbody
      · simp only [skipSign, hx, if_false] at hbody
        have hxc : x = c := (List.cons.inj hbody).1
        have hxr : xs = r := (List.cons.inj hbody).2
        subst hxc
        subst hxr
        simp [List.dropWhile_cons, hcs.1, skipSign, hx]
  simp only [hasSubject, hdrop]
  rcases hc with hd | ⟨hp, d, r2, hr, hd⟩
  · simp [hd]
  · subst hp; subst hr
    simp [hd]

/-! ## The claims -/

/-- C2, as stated, fails: with attestation type "SEVSNPVM" and compliance status
"Azure-CVM-Compliant" the verdict is false, because the code compares the status with
"azure-compliant-cvm". -/
theorem spec_sentinel_verdict_counterexample :
    lookup KEY_TEE (sampleMembers "SEVSNPVM".toList "Azure-CVM-Compliant".toList)
      = some (.object (sampleTee "SEVSNPVM".toList "Azure-CVM-Compliant".toList))
    ∧ lookup KEY_TYPE (sampleTee "SEVSNPVM".toList "Azure-CVM-Compliant".toList)
      = some (.string "SEVSNPVM".toList)
    ∧ lookup KEY_STATUS (sampleTee "SEVSNPVM".toList "Azure-CVM-Compliant".toList)
      = some (.string "Azure-CVM-Compliant".toList)
    ∧ equalIgnoringCase "SEVSNPVM".toList "SEVSNPVM".toList
    ∧ equalIgnoringCase "Azure-CVM-Compliant".toList "Azure-CVM-Compliant".toList
    ∧ evaluateClaims (.object (sampleMembers "SEVSNPVM".toList "Azure-CVM-Compliant".toList))
      = false :=
  ⟨rfl, rfl, rfl, by decide, by decide, by decide⟩

/-- C2, amended. For a claims object whose attestation type is any letter-case variant of
"SEVSNPVM" and whose compliance status is any letter-case variant of "azure-compliant-cvm",
the verdict is true. -/
theorem code_sentinel_verdict (ms tee : List (Str × Json)) (t c : Str)
    (htee : lookup KEY_TEE ms = some (.object tee))
    (ht : lookup KEY_TYPE tee = some (.string t))
    (hc : lookup KEY_STATUS tee = some (.string c))
    (htype : equalIgnoringCase t "SEVSNPVM".toList)
    (hstatus : equalIgnoringCase c "azure-compliant-cvm".toList) :
    evaluateClaims (.object ms) = true := by
  have h1 : iequals t "sevsnpvm".toList = true := by
    rw [iequals_iff]
    unfold equalIgnoringCase at htype ⊢
    rw [htype]
    decide
  have h2 : iequals c "azure-compliant-cvm".toList = true := (iequals_iff _ _).mpr hstatus
  rw [evaluateClaims_present ms tee t c htee ht hc, h1, h2]
  rfl

/-- Witness for C2 amended: upper-case variants of both sentinels of the code. -/
theorem code_sentinel_verdict_witness :
    equalIgnoringCase "SevSnpVM".toList "SEVSNPVM".toList
    ∧ equalIgnoringCase "AZURE-COMPLIANT-CVM".toList "azure-compliant-cvm".toList
    ∧ evaluateClaims (.object (sampleMembers "SevSnpVM".toList "AZURE-COMPLIANT-CVM".toList))
        = true :=
  ⟨by decide, by decide,
    code_sentinel_verdict (sampleMembers "SevSnpVM".toList "AZURE-COMPLIANT-CVM".toList)
      (sampleTee "SevSnpVM".toList "AZURE-COMPLIANT-CVM".toList) _ _ rfl rfl rfl
      (by decide) (by decide)⟩

/-- C3. For every parsed claims value of any kind that is inconclusive (the TEE isolation
member absent or not an object, or one of the two fields absent or not a string), the
evaluation yields false without an error, and the run goes on to print its one line and ends
with status 0; it never takes the exit of the outer handler. -/
theorem inconclusive_claims_give_false (env : Env) (argv : List Str) (o : Options)
    (p decoded : Str) (claims : Json)
    (hopts : parseOptions env.pastEnd argv = .done o)
    (hinit : env.init_ok = true)
    (hpay : buildPayload env o = .ok p)
    (hsucc : (env.attest (effectiveUrl o) p).1.code_ = ErrorCode.SUCCESS)
    (hlen : 3 ≤ (split isDot (env.attest (effectiveUrl o) p).2).length)
    (hdec : env.base64_decode ((split isDot (env.attest (effectiveUrl o) p).2).getD 1 [])
      = .ok decoded)
    (hparse : env.parse decoded = .ok claims)
    (hinc : inconclusive claims = true) :
    evaluateClaims claims = false
    ∧ main env argv
        = ⟨[.init, .attest (effectiveUrl o) p, .free,
            .base64_decode ((split isDot (env.attest (effectiveUrl o) p).2).getD 1 []),
            .parse decoded,
            .stdout (outputLine (effectiveOutputType o) true (env.attest (effectiveUrl o) p).2
              (env.attest (effectiveUrl o) p).1.description_ false),
            .uninit], 0⟩ := by
  have hv := evaluateClaims_inconclusive claims hinc
  refine ⟨hv, ?_⟩
  have hs : ¬ ErrorCode.SUCCESS ≠ ErrorCode.SUCCESS := by simp
  rw [main_of_options env argv o hopts, mainBody_of_payload env o p hinit hpay]
  simp only [afterAttest, hsucc, hs, if_false, decodeToken_long env _ hlen,
    decodeSegment_parsed env _ decoded claims hdec hparse, hv]
  rfl

/-- Witness for C3: the claims value is a JSON array. -/
theorem inconclusive_claims_give_false_witness :
    inconclusive (.array [.string "sevsnpvm".toList]) = true
    ∧ (evaluateClaims (.array [.string "sevsnpvm".toList]) = false
      ∧ main (sampleEnv .SUCCESS "h.p.s".toList (.array [.string "sevsnpvm".toList]))
          ["prog".toList]
        = ⟨[.init, .attest default_attestation_url "payload".toList, .free,
            .base64_decode "p".toList, .parse "p".toList, .stdout "false\n".toList, .uninit],
            0⟩) :=
  ⟨rfl, inconclusive_claims_give_false
      (sampleEnv .SUCCESS "h.p.s".toList (.array [.string "sevsnpvm".toList]))
      ["prog".toList] noOptions "payload".toList "p".toList _ rfl rfl rfl rfl (by decide) rfl rfl
      rfl⟩

/-- C4. After a successful attestation, a token with fewer than two dots splits into fewer
than three segments and the run ends with status 1 right after the split: nothing is decoded
or parsed and the only text printed is the error message. A token with at least two dots
splits into at least three segments and its second segment is handed to the decoder. -/
theorem short_token_rejected (env : Env) (argv : List Str) (o : Options) (p : Str)
    (hopts : parseOptions env.pastEnd argv = .done o)
    (hinit : env.init_ok = true)
    (hpay : buildPayload env o = .ok p)
    (hsucc : (env.attest (effectiveUrl o) p).1.code_ = ErrorCode.SUCCESS) :
    ((env.attest (effectiveUrl o) p).2.count '.' < 2 →
        (split isDot (env.attest (effectiveUrl o) p).2).length < 3
        ∧ main env argv
            = ⟨[.init, .attest (effectiveUrl o) p, .free, .stdout "Invalid JWT token".toList], 1⟩)
    ∧ (2 ≤ (env.attest (effectiveUrl o) p).2.count '.' →
        3 ≤ (split isDot (env.attest (effectiveUrl o) p).2).length
        ∧ Event.base64_decode ((split isDot (env.attest (effectiveUrl o) p).2).getD 1 [])
            ∈ (main env argv).trace) := by
  rw [main_of_options env argv o hopts, mainBody_of_payload env o p hinit hpay]
  have hs : ¬ ErrorCode.SUCCESS ≠ ErrorCode.SUCCESS := by simp
  constructor
  · intro h
    have hl : (split isDot (env.attest (effectiveUrl o) p).2).length < 3 := by
      rw [split_length]; omega
    refine ⟨hl, ?_⟩
    simp only [afterAttest, hsucc, hs, if_false, decodeToken_short env _ hl]
    rfl
  · intro h
    have hl : 3 ≤ (split isDot (env.attest (effectiveUrl o) p).2).length := by
      rw [split_length]; omega
    refine ⟨hl, ?_⟩
    have hlong := decodeToken_long env (env.attest (effectiveUrl o) p).2 hl
    simp only [afterAttest, hsucc, hs, if_false, hlong]
    rcases decodeSegment_decodes env ((split isDot (env.attest (effectiveUrl o) p).2).getD 1 [])
      with ⟨t, ht⟩ | ⟨d, b, hd⟩
    · rw [ht]; simp
    · rw [hd]; simp

/-- Witness for C4: the token "header.payload" has one dot. -/
theorem short_token_rejected_witness :
    ("header.payload".toList.count '.' < 2 →
        (split isDot "header.payload".toList).length < 3
        ∧ main (sampleEnv .SUCCESS "header.payload".toList .null) ["prog".toList]
            = ⟨[.init, .attest default_attestation_url "payload".toList, .free,
                .stdout "Invalid JWT token".toList], 1⟩)
    ∧ (2 ≤ "header.payload".toList.count '.' →
        3 ≤ (split isDot "header.payload".toList).length
        ∧ Event.base64_decode ((split isDot "header.payload".toList).getD 1 [])
            ∈ (main (sampleEnv .SUCCESS "header.payload".toList .null) ["prog".toList]).trace) :=
  short_token_rejected (sampleEnv .SUCCESS "header.payload".toList .null) ["prog".toList]
    noOptions "payload".toList rfl rfl rfl rfl

/-- C5. A token with at least three segments, however many more it has, is accepted by the
length check and its outcome is that of its second segment alone: when that segment decodes
and parses the outcome is the verdict of the parsed claims, and when decoding or parsing
throws the outcome is the fatal failure. Hence two such tokens with the same second segment
have the same decoding outcome, the same verdict, the same exit status, and in boolean output
mode the same run; the first, third and further segments play no part. -/
theorem only_second_segment_matters (env : Env) (j1 j2 : Str)
    (h1 : 3 ≤ (split isDot j1).length) (h2 : 3 ≤ (split isDot j2).length)
    (hseg : (split isDot j1).getD 1 [] = (split isDot j2).getD 1 []) :
    (decodeToken env j1 ≠ .fatal [.stdout "Invalid JWT token".toList]
      ∧ decodeToken env j2 ≠ .fatal [.stdout "Invalid JWT token".toList])
    ∧ (∀ decoded claims,
        env.base64_decode ((split isDot j1).getD 1 []) = .ok decoded →
        env.parse decoded = .ok claims →
        decodeToken env j1
            = .verdict [.base64_decode ((split isDot j1).getD 1 []), .parse decoded]
                (evaluateClaims claims)
        ∧ decodeToken env j2
            = .verdict [.base64_decode ((split isDot j1).getD 1 []), .parse decoded]
                (evaluateClaims claims))
    ∧ (∀ e, env.base64_decode ((split isDot j1).getD 1 []) = .error e →
        decodeToken env j1
            = .fatal [.base64_decode ((split isDot j1).getD 1 []),
                .stdout (exceptionText env e)]
        ∧ decodeToken env j2
            = .fatal [.base64_decode ((split isDot j1).getD 1 []),
                .stdout (exceptionText env e)])
    ∧ (∀ decoded e,
        env.base64_decode ((split isDot j1).getD 1 []) = .ok decoded →
        env.parse decoded = .error e →
        decodeToken env j1
            = .fatal [.base64_decode ((split isDot j1).getD 1 []), .parse decoded,
                .stdout (exceptionText env e)]
        ∧ decodeToken env j2
            = .fatal [.base64_decode ((split isDot j1).getD 1 []), .parse decoded,
                .stdout (exceptionText env e)])
    ∧ decodeToken env j1 = decodeToken env j2
    ∧ (∀ output_type result,
        (afterAttest env output_type result j1).exit_code
          = (afterAttest env output_type result j2).exit_code)
    ∧ (∀ output_type result, iequals output_type OUTPUT_TYPE_JWT = false →
        afterAttest env output_type result j1 = afterAttest env output_type result j2) := by
  have e1 := decodeToken_long env j1 h1
  have e2 := decodeToken_long env j2 h2
  rw [← hseg] at e2
  have hd : decodeToken env j1 = decodeToken env j2 := by rw [e1, e2]
  have hacc : decodeToken env j1 ≠ .fatal [.stdout "Invalid JWT token".toList] := by
    rw [e1]
    rcases decodeSegment_decodes env ((split isDot j1).getD 1 []) with ⟨t, ht⟩ | ⟨d, b, hb⟩
    · rw [ht]
      intro h
      cases h
    · rw [hb]
      intro h
      cases h
  refine ⟨⟨hacc, hd ▸ hacc⟩, ?_, ?_, ?_, hd, ?_, ?_⟩
  · intro decoded claims hdec hparse
    rw [e1, e2]
    exact ⟨decodeSegment_parsed env _ decoded claims hdec hparse,
      decodeSegment_parsed env _ decoded claims hdec hparse⟩
  · intro e hdec
    rw [e1, e2]
    have hf : decodeSegment env ((split isDot j1).getD 1 [])
        = .fatal [.base64_decode ((split isDot j1).getD 1 []),
            .stdout (exceptionText env e)] := by
      simp only [decodeSegment, hdec]
    exact ⟨hf, hf⟩
  · intro decoded e hdec hparse
    rw [e1, e2]
    have hf : decodeSegment env ((split isDot j1).getD 1 [])
        = .fatal [.base64_decode ((split isDot j1).getD 1 []), .parse decoded,
            .stdout (exceptionText env e)] := by
      simp only [decodeSegment, hdec, hparse]
    exact ⟨hf, hf⟩
  · intro ot r
    simp only [afterAttest, hd]
    split <;> [rfl; (split <;> rfl)]
  · intro ot r hm
    simp only [afterAttest, hd, outputLine, hm]
    split <;> [rfl; (split <;> simp)]

/-- Witness for C5: a three-segment token and a five-segment token sharing the second
segment; both are accepted and both get the verdict of the claims of that segment. -/
theorem only_second_segment_matters_witness :
    (split isDot "x.claims.y.z.".toList).length = 5
    ∧ (split isDot "a.claims.c".toList).getD 1 [] = (split isDot "x.claims.y.z.".toList).getD 1 []
    ∧ decodeToken (sampleEnv .SUCCESS []
          (.object (sampleMembers "sevsnpvm".toList "azure-compliant-cvm".toList)))
        "a.claims.c".toList
      = .verdict [.base64_decode "claims".toList, .parse "claims".toList] true
    ∧ decodeToken (sampleEnv .SUCCESS []
          (.object (sampleMembers "sevsnpvm".toList "azure-compliant-cvm".toList)))
        "x.claims.y.z.".toList
      = .verdict [.base64_decode "claims".toList, .parse "claims".toList] true :=
  ⟨by decide, by decide,
    (only_second_segment_matters
      (sampleEnv .SUCCESS [] (.object (sampleMembers "sevsnpvm".toList "azure-compliant-cvm".toList)))
      "a.claims.c".toList "x.claims.y.z.".toList (by decide) (by decide) (by decide)).2.1
      "claims".toList
      (.object (sampleMembers "sevsnpvm".toList "azure-compliant-cvm".toList)) rfl rfl⟩

/-- C6, as stated, fails: in TOKEN mode a successful attestation that returns the token
"abc" prints the error message, not the token, and the exit status is 1. -/
theorem token_mode_prints_token_counterexample :
    parseOptions NUL (argvWith "-o" "TOKEN") = .done (optionsWithOutput "TOKEN".toList)
    ∧ ((sampleEnv .SUCCESS "abc".toList .null).attest default_attestation_url
        "payload".toList).1.code_ = ErrorCode.SUCCESS
    ∧ main (sampleEnv .SUCCESS "abc".toList .null) (argvWith "-o" "TOKEN")
        = ⟨[.init, .attest default_attestation_url "payload".toList, .free,
            .stdout "Invalid JWT token".toList], 1⟩
    ∧ (main (sampleEnv .SUCCESS "abc".toList .null) (argvWith "-o" "TOKEN")).printed
        ≠ ["abc\n".toList]
    ∧ (main (sampleEnv .SUCCESS "abc".toList .null) (argvWith "-o" "TOKEN")).exit_code ≠ 0 := by
  refine ⟨by decide, by decide, by decide, by decide, by decide⟩

/-- C6, amended. When the attestation succeeds with a token of at least three segments whose
second segment decodes and parses, and the output mode is TOKEN in any letter case, the
program prints exactly the raw token followed by a newline as its one output line and exits
with status 0. -/
theorem token_mode_prints_wellformed_token (env : Env) (argv : List Str) (o : Options)
    (p decoded : Str) (claims : Json)
    (hopts : parseOptions env.pastEnd argv = .done o)
    (hinit : env.init_ok = true)
    (hpay : buildPayload env o = .ok p)
    (hsucc : (env.attest (effectiveUrl o) p).1.code_ = ErrorCode.SUCCESS)
    (hmode : equalIgnoringCase o.output_type OUTPUT_TYPE_JWT)
    (hlen : 3 ≤ (split isDot (env.attest (effectiveUrl o) p).2).length)
    (hdec : env.base64_decode ((split isDot (env.attest (effectiveUrl o) p).2).getD 1 [])
      = .ok decoded)
    (hparse : env.parse decoded = .ok claims) :
    (main env argv).printed = [(env.attest (effectiveUrl o) p).2 ++ ['\n']]
    ∧ (main env argv).exit_code = 0 := by
  have hs : ¬ ErrorCode.SUCCESS ≠ ErrorCode.SUCCESS := by simp
  have hm : iequals (effectiveOutputType o) OUTPUT_TYPE_JWT = true := by
    rw [iequals_effectiveOutputType]; exact (iequals_iff _ _).mpr hmode
  rw [main_of_options env argv o hopts, mainBody_of_payload env o p hinit hpay]
  simp only [afterAttest, hsucc, hs, if_false, decodeToken_long env _ hlen,
    decodeSegment_parsed env _ decoded claims hdec hparse, outputLine, hm]
  simp [Run.printed]

/-- Witness for C6 amended: the option value "token" and a three-segment token. -/
theorem token_mode_prints_wellformed_token_witness :
    equalIgnoringCase (optionsWithOutput "token".toList).output_type OUTPUT_TYPE_JWT
    ∧ (main (sampleEnv .SUCCESS "h.p.s".toList .null) (argvWith "-o" "token")).printed
        = ["h.p.s".toList ++ ['\n']]
    ∧ (main (sampleEnv .SUCCESS "h.p.s".toList .null) (argvWith "-o" "token")).exit_code = 0 :=
  ⟨by decide,
    token_mode_prints_wellformed_token (sampleEnv .SUCCESS "h.p.s".toList .null)
      (argvWith "-o" "token") (optionsWithOutput "token".toList) "payload".toList "p".toList
      .null (by decide) rfl rfl rfl (by decide) (by decide) rfl rfl⟩

/-- C7. When `Attest` reports a code other than SUCCESS and the output type is BOOL or was
not given, the run consists of the client start, the `Attest` call, the one output line
"false" and the client shutdown, with exit status 0: the token is neither freed, split,
decoded nor evaluated. -/
theorem bool_mode_attestation_failure (env : Env) (argv : List Str) (o : Options) (p : Str)
    (hopts : parseOptions env.pastEnd argv = .done o)
    (hinit : env.init_ok = true)
    (hpay : buildPayload env o = .ok p)
    (hfail : (env.attest (effectiveUrl o) p).1.code_ ≠ ErrorCode.SUCCESS)
    (hmode : o.output_type = OUTPUT_TYPE_BOOL ∨ o.output_type = []) :
    main env argv
      = ⟨[.init, .attest (effectiveUrl o) p, .stdout "false\n".toList, .uninit], 0⟩ := by
  have hm : iequals (effectiveOutputType o) OUTPUT_TYPE_JWT = false := by
    rw [iequals_effectiveOutputType]
    rcases hmode with h | h <;> rw [h] <;> decide
  rw [main_of_options env argv o hopts, mainBody_of_payload env o p hinit hpay]
  simp [afterAttest, hfail, outputLine, hm]

/-- Witness for C7: no output type given, `Attest` fails with code -1. -/
theorem bool_mode_attestation_failure_witness :
    ((sampleEnv (.failure (-1)) [] .null).attest default_attestation_url
        "payload".toList).1.code_ ≠ ErrorCode.SUCCESS
    ∧ main (sampleEnv (.failure (-1)) [] .null) (argvWith "-n" "abc123")
      = ⟨[.init, .attest default_attestation_url "payload".toList, .stdout "false\n".toList,
          .uninit], 0⟩ :=
  ⟨by decide,
    bool_mode_attestation_failure (sampleEnv (.failure (-1)) [] .null) (argvWith "-n" "abc123")
      { noOptions with nonce := "abc123".toList } "payload".toList (by decide) rfl rfl
      (by decide) (Or.inr rfl)⟩

/-- C8, as stated, fails: the price "12abc" is not a base-10 number in its entirety, yet
`std::stod` converts its leading "12", the request is built, `Attest` is invoked and the
run ends with status 0. -/
theorem bad_price_rejected_counterexample :
    isDecimalFloat "12abc".toList = false
    ∧ parseOptions NUL (argvWith "-p" "12abc") = .done (optionsWithPrice "12abc".toList)
    ∧ stod (sampleEnv .SUCCESS "h.p.s".toList .null).strtod_value "12abc".toList
        = .ok ⟨0x4028000000000000⟩
    ∧ Event.attest default_attestation_url "payload".toList
        ∈ (main (sampleEnv .SUCCESS "h.p.s".toList .null) (argvWith "-p" "12abc")).trace
    ∧ (main (sampleEnv .SUCCESS "h.p.s".toList .null) (argvWith "-p" "12abc")).exit_code = 0 := by
  refine ⟨by decide, by decide, rfl, by decide, by decide⟩

/-- C8, amended. For every non-empty price string in which `std::stod` finds no number to
convert (after optional white space and sign it begins neither with a digit, nor with a point
and a digit, nor with INF or NAN), for example "notanumber", the process exits with status 1
and `Attest` is never invoked; such a string is never a base-10 number in its entirety. -/
theorem price_without_number_rejected (env : Env) (argv : List Str) (o : Options)
    (hopts : parseOptions env.pastEnd argv = .done o)
    (hne : o.price ≠ [])
    (hnum : hasSubject o.price = false) :
    isDecimalFloat o.price = false
    ∧ (main env argv).exit_code = 1
    ∧ ∀ url payload, Event.attest url payload ∉ (main env argv).trace := by
  refine ⟨?_, ?_⟩
  · cases hd : isDecimalFloat o.price with
    | false => rfl
    | true => rw [hasSubject_of_isDecimalFloat o.price hd] at hnum; cases hnum
  rw [main_of_options env argv o hopts]
  have hp : buildPayload env o
      = .error ⟨[.init, .stdout ("Error converting price: ".toList
          ++ env.what .invalid_argument ++ ['\n'])], 1⟩ := by
    simp [buildPayload, hne, stod, hnum]
  by_cases hinit : env.init_ok = false
  · simp [mainBody, hinit]
  · simp [mainBody, hinit, hp]

/-- Witness for C8 amended: the price "notanumber". -/
theorem price_without_number_rejected_witness :
    hasSubject "notanumber".toList = false
    ∧ isDecimalFloat "notanumber".toList = false
    ∧ (main (sampleEnv .SUCCESS "h.p.s".toList .null) (argvWith "-p" "notanumber")).exit_code = 1
    ∧ ∀ url payload, Event.attest url payload
        ∉ (main (sampleEnv .SUCCESS "h.p.s".toList .null) (argvWith "-p" "notanumber")).trace :=
  ⟨by decide,
    price_without_number_rejected (sampleEnv .SUCCESS "h.p.s".toList .null)
      (argvWith "-p" "notanumber") (optionsWithPrice "notanumber".toList) (by decide)
      (by decide) (by decide)⟩

/-- C9. With the fallback `getopt`: whenever option parsing reaches an argument that begins
with a dash and whose second character is none of a, n, p, o (the colon and the bare dash
included), or reaches a dash argument that is the last argument, `getopt` returns the code
of `?`, the code of `:` or 0, hence a value that is neither -1 nor one of a, n, p, o, and
`main` exits with status 1 with neither the client start nor an `Attest` call in its run. -/
theorem bad_option_exits_before_attestation (env : Env) (argv : List Str)
    (st : GetoptState) (o : Options)
    (hreach : Reaches env.pastEnd argv st o)
    (hind : st.optind < argv.length)
    (hdash : cstrAt (argv.getD st.optind []) 0 = '-')
    (hbad : cstrAt (argv.getD st.optind []) 1 ∉ ['a', 'n', 'p', 'o']
      ∨ st.optind + 1 = argv.length) :
    ((getopt env.pastEnd argv optstring st).1 = charCode '?'
      ∨ (getopt env.pastEnd argv optstring st).1 = charCode ':'
      ∨ (getopt env.pastEnd argv optstring st).1 = 0)
    ∧ (getopt env.pastEnd argv optstring st).1
        ∉ [-1, charCode 'a', charCode 'n', charCode 'p', charCode 'o']
    ∧ (main env argv).exit_code = 1
    ∧ Event.init ∉ (main env argv).trace
    ∧ ∀ url payload, Event.attest url payload ∉ (main env argv).trace := by
  have hg := getopt_bad env.pastEnd argv st hind hdash hbad
  have hout : (getopt env.pastEnd argv optstring st).1
      ∉ [-1, charCode 'a', charCode 'n', charCode 'p', charCode 'o'] := by
    rcases hg with h | h | h <;> rw [h] <;> decide
  obtain ⟨fuel, _, he⟩ := reaches_loop env.pastEnd argv st o hreach
  refine ⟨hg, hout, ?_⟩
  unfold main
  rw [he]
  rcases optionLoop_exit env.pastEnd argv fuel st o hg with h | h <;> rw [h] <;> simp

/-- Witness for C9: after `-n x` has been stored, parsing reaches the unknown option `-z`. -/
theorem bad_option_exits_before_attestation_witness :
    ((getopt NUL ["prog".toList, "-n".toList, "x".toList, "-z".toList] optstring
          ⟨3, some "x".toList⟩).1 = charCode '?'
      ∨ (getopt NUL ["prog".toList, "-n".toList, "x".toList, "-z".toList] optstring
          ⟨3, some "x".toList⟩).1 = charCode ':'
      ∨ (getopt NUL ["prog".toList, "-n".toList, "x".toList, "-z".toList] optstring
          ⟨3, some "x".toList⟩).1 = 0)
    ∧ (getopt NUL ["prog".toList, "-n".toList, "x".toList, "-z".toList] optstring
          ⟨3, some "x".toList⟩).1
        ∉ [-1, charCode 'a', charCode 'n', charCode 'p', charCode 'o']
    ∧ (main (sampleEnv .SUCCESS "h.p.s".toList .null)
        ["prog".toList, "-n".toList, "x".toList, "-z".toList]).exit_code = 1
    ∧ Event.init ∉ (main (sampleEnv .SUCCESS "h.p.s".toList .null)
        ["prog".toList, "-n".toList, "x".toList, "-z".toList]).trace
    ∧ ∀ url payload, Event.attest url payload ∉ (main (sampleEnv .SUCCESS "h.p.s".toList .null)
        ["prog".toList, "-n".toList, "x".toList, "-z".toList]).trace :=
  bad_option_exits_before_attestation (sampleEnv .SUCCESS "h.p.s".toList .null)
    ["prog".toList, "-n".toList, "x".toList, "-z".toList] ⟨3, some "x".toList⟩
    { noOptions with nonce := "x".toList }
    (Reaches.step initialState ⟨3, some "x".toList⟩ noOptions
      { noOptions with nonce := "x".toList } (charCode 'n') Reaches.start rfl (by decide) rfl)
    (by decide) (by decide) (Or.inl (by decide))

end CvmAttestation
